import Mathlib

/-!
Shallow embedding of src/MCServerStatus.py, a Discord bot that tracks the
liveness of Minecraft servers. Pure fragments of the program become Lean
functions; the effectful parts become explicit state passing. External
collaborators are parameters: the status source is a function from a server
to a result, and message-handle resolution during recovery is a boolean
oracle over persisted records. Exceptions of the Python code become the
Except monad, placed exactly where the try and except blocks stand in the
source.
-/

/-- A live status snapshot returned by the status source for one server,
mirroring status.players.online and status.players.sample. -/
structure Status where
  playersOnline : Nat
  sample : List String
deriving DecidableEq

/-- One tracked server, flattening MCServer of the source: identity fields
plus the ids carried by its notification message (message, channel, guild). -/
structure MCServer where
  name : String
  address : String
  guildId : Nat
  channelId : Nat
  messageId : Nat
deriving DecidableEq

/-- One persisted record of the snapshot file, as written by
MCStatusClient.write_json_file. -/
structure ServerRecord where
  name : String
  address : String
  guild_id : Nat
  channel_id : Nat
  message_id : Nat
deriving DecidableEq

/-- Outcome of the addserver command: a duplicate rejection carrying the
message link of the existing entry, or a success response. -/
inductive AddResult where
  | duplicate (link : String)
  | added (nm : String)
deriving DecidableEq

/-- Outcome of the removeserver command: success, the empty-registry
response, or the not-found response listing the current addresses. -/
inductive RemoveResponse where
  | removed
  | empty
  | notFound (addresses : List String)
deriving DecidableEq

/-- The player-name loop of MCServer.get_content, accumulating one line per
sampled player name onto the content built so far. -/
def appendNames : String → List String → String
  | content, [] => content
  | content, p :: rest => appendNames (content ++ p ++ "\n") rest

/-- Concatenation of the given names, one line per name. Used to state what
the accumulating loop produces. -/
def joinLines : List String → String
  | [] => ""
  | p :: rest => p ++ "\n" ++ joinLines rest

/-- MCServer.get_content of the source: renders the online status text from
the server name and a status snapshot. -/
def get_content (nm : String) (st : Status) : String :=
  let content := nm ++ " is **online** with " ++ toString st.playersOnline ++ " online player"
  if st.playersOnline == 0 then
    content ++ "s."
  else if st.playersOnline == 1 then
    appendNames (content ++ ".\n\nPlayer:\n") st.sample
  else
    appendNames (content ++ "s.\n\nPlayers:\n") st.sample

/-- get_log_time of the source: zero-padded HH:MM:SS timestamp text. -/
def get_log_time (hour minute second : Nat) : String :=
  (if hour < 10 then "0" else "") ++ toString hour ++ ":"
    ++ (if minute < 10 then "0" else "") ++ toString minute ++ ":"
    ++ (if second < 10 then "0" else "") ++ toString second

/-- MCServer.handle_exception of the source: the offline message content the
notification message is edited to, paired with the log line printed with a
timestamp. -/
def handle_exception (hour minute second : Nat) (sv : MCServer) (e : String) : String × String :=
  (sv.name ++ " is **offline**: " ++ e,
   get_log_time hour minute second ++ "> Error looking up server " ++ sv.name
     ++ " (" ++ sv.address ++ ") status: " ++ e)

/-- MCServer.get_status of the source. The status source env may fail; the
try block catches that failure and hands it to handle_exception, which edits
the message to the offline rendering and produces a log line. The result is
the new message content paired with the optional log line; the Except layer
is what the caller (the poll loop) observes as a raised exception. -/
def get_status (hour minute second : Nat) (env : MCServer → Except String Status)
    (sv : MCServer) : Except String (String × Option String) :=
  match env sv with
  | Except.ok st => Except.ok (get_content sv.name st, none)
  | Except.error e =>
      let h := handle_exception hour minute second sv e
      Except.ok (h.1, some h.2)

/-- The poll_servers task body of the source: one tick iterates the servers
in order, awaiting get_status on each; a raised exception would abort the
remaining iterations (the Except bind). Returns the list of message edits
(message id with new content) and the log lines, in order. -/
def poll_servers (hour minute second : Nat) (env : MCServer → Except String Status) :
    List MCServer → Except String (List (Nat × String) × List String)
  | [] => Except.ok ([], [])
  | sv :: rest => do
      let r ← get_status hour minute second env sv
      let rs ← poll_servers hour minute second env rest
      Except.ok ((sv.messageId, r.1) :: rs.1,
        (match r.2 with | some l => [l] | none => []) ++ rs.2)

/-- The message link built by addserver_command for a duplicate rejection. -/
def message_link (s : MCServer) : String :=
  "https://discord.com/channels/" ++ toString s.guildId ++ "/" ++ toString s.channelId
    ++ "/" ++ toString s.messageId

/-- addserver_command of the source. The address is ip:port; the loop
rejects the first server already holding that address, pointing at its
message; otherwise a new MCServer is created, its notification message made
in the invoking channel (ids chGuildId, chChannelId, newMessageId), the
server appended, and write_json_file invoked. The Bool records whether
write_json_file was invoked. -/
def addserver (servers : List MCServer) (ip nm : String) (port : Nat)
    (chGuildId chChannelId newMessageId : Nat) : List MCServer × AddResult × Bool :=
  let address := ip ++ ":" ++ toString port
  match servers.find? (fun s => s.address == address) with
  | some s => (servers, AddResult.duplicate (message_link s), false)
  | none =>
      (servers ++ [⟨nm, address, chGuildId, chChannelId, newMessageId⟩],
       AddResult.added nm, true)

/-- One addserver invocation, bundled to state properties of sequences of
add calls. -/
structure AddReq where
  ip : String
  nm : String
  port : Nat
  guildId : Nat
  channelId : Nat
  messageId : Nat
deriving DecidableEq

/-- A sequence of addserver invocations folded over the registry. -/
def runAdds (servers : List MCServer) (reqs : List AddReq) : List MCServer :=
  reqs.foldl
    (fun acc q => (addserver acc q.ip q.nm q.port q.guildId q.channelId q.messageId).1)
    servers

/-- Python substring containment needle in hay, over character lists. -/
def containsSub (needle : List Char) : List Char → Bool
  | [] => needle.isEmpty
  | c :: t => needle.isPrefixOf (c :: t) || containsSub needle t

/-- The removal loop of removeserver_command: scan the servers in order and
drop the first one whose address contains ip and whose message guild id is
the guild of the interaction; none when no server matches. -/
def removeTarget (ip : String) (callerGuildId : Nat) : List MCServer → Option (List MCServer)
  | [] => none
  | s :: rest =>
      if containsSub ip.data s.address.data && s.guildId == callerGuildId then
        some rest
      else
        match removeTarget ip callerGuildId rest with
        | some rest2 => some (s :: rest2)
        | none => none

/-- removeserver_command of the source. The interaction carries a guild id
and a channel id; the scope check of the loop reads only the guild id. On a
match the server is removed and the command returns at once, without
invoking write_json_file (the Bool records whether it was invoked). With no
match, the response is the empty-registry text when no servers exist, else
the not-found text listing every tracked address in registry order. -/
def removeserver (servers : List MCServer) (ip : String)
    (callerGuildId callerChannelId : Nat) : List MCServer × RemoveResponse × Bool :=
  match removeTarget ip callerGuildId servers with
  | some servers2 => (servers2, RemoveResponse.removed, false)
  | none =>
      if servers.isEmpty then
        (servers, RemoveResponse.empty, false)
      else
        (servers, RemoveResponse.notFound (servers.map (fun s => s.address)), false)

/-- The MCServer reconstructed from a persisted record during recovery: the
name and address of the record, and the ids of the fetched message, which
are the ids stored in the record. No new message is created. -/
def serverOfRecord (r : ServerRecord) : MCServer :=
  ⟨r.name, r.address, r.guild_id, r.channel_id, r.message_id⟩

/-- MCStatusClient.write_json_file of the source: serialize every tracked
server, in order, to its persisted record. -/
def write_json_file (servers : List MCServer) : List ServerRecord :=
  servers.map (fun s => ⟨s.name, s.address, s.guildId, s.channelId, s.messageId⟩)

/-- One iteration of the recovery loop of MCStatusClient.read_json_file over
a persisted record: when a tracked server already matches the record in both
name and address the record is skipped; otherwise the record resolution
(guild, channel, message fetch) is attempted via the oracle ok, appending
the reconstructed server on success and counting a logged warning on
failure. The state is the servers list and the warning count. -/
def loadStep (ok : ServerRecord → Bool) (acc : List MCServer × Nat) (item : ServerRecord) :
    List MCServer × Nat :=
  if acc.1.any (fun s => s.name == item.name && s.address == item.address) then
    acc
  else if ok item then
    (acc.1 ++ [serverOfRecord item], acc.2)
  else
    (acc.1, acc.2 + 1)

/-- MCStatusClient.read_json_file of the source, over parsed snapshot data:
fold the recovery step over the records, starting from the current servers
with zero warnings. -/
def read_json_file (ok : ServerRecord → Bool) (servers : List MCServer)
    (data : List ServerRecord) : List MCServer × Nat :=
  data.foldl (loadStep ok) (servers, 0)

/-- A record is covered by a registry when some tracked server matches it in
both name and address. -/
def covers (R : List MCServer) (r : ServerRecord) : Prop :=
  ∃ s ∈ R, s.name = r.name ∧ s.address = r.address

/-! Helper lemmas. -/

theorem appendNames_eq (content : String) (l : List String) :
    appendNames content l = content ++ joinLines l := by
  induction l generalizing content with
  | nil => simp [appendNames, joinLines]
  | cons p rest ih =>
      simp only [appendNames, joinLines]
      rw [ih]
      apply String.ext
      simp [String.data_append, List.append_assoc]

/-- C1 counterexample: the code renders the online and offline state words
wrapped in double asterisks (Discord bold markup), so the rendered text does
not equal the bare formats of the spec. -/
theorem C1_counterexample :
    get_content "Survival" ⟨0, []⟩ = "Survival is **online** with 0 online players."
    ∧ get_content "Survival" ⟨0, []⟩ ≠ "Survival is online with 0 online players."
    ∧ (handle_exception 0 0 0 ⟨"Survival", "1.2.3.4:25565", 1, 10, 100⟩ "ConnectionRefused").1
        = "Survival is **offline**: ConnectionRefused"
    ∧ (handle_exception 0 0 0 ⟨"Survival", "1.2.3.4:25565", 1, 10, 100⟩ "ConnectionRefused").1
        ≠ "Survival is offline: ConnectionRefused" := by
  refine ⟨by decide, by decide, by decide, by decide⟩

/-- C1 amended: the rendered status text follows the spec formats except
that the state words online and offline carry surrounding double asterisks:
offline renders as name is **offline**: failure; online with 0 players has
no player section; online with 1 player uses the singular header Player:
followed by the sampled names, one per line, in source order (the single
name when the sample holds one entry); online with two or more players uses
the plural header Players: followed by the sampled names in source order,
with no truncation. -/
theorem C1_amended_formats (hour minute second : Nat) (sv : MCServer)
    (e nm : String) (sample : List String) (n : Nat) :
    (handle_exception hour minute second sv e).1 = sv.name ++ " is **offline**: " ++ e
    ∧ get_content nm ⟨0, sample⟩ = nm ++ " is **online** with 0 online players."
    ∧ get_content nm ⟨1, sample⟩
        = nm ++ " is **online** with 1 online player.\n\nPlayer:\n" ++ joinLines sample
    ∧ (2 ≤ n →
        get_content nm ⟨n, sample⟩
          = nm ++ " is **online** with " ++ toString n ++ " online players.\n\nPlayers:\n"
              ++ joinLines sample) := by
  refine ⟨rfl, ?_, ?_, ?_⟩
  · show (nm ++ " is **online** with " ++ toString (0 : Nat) ++ " online player") ++ "s." = _
    apply String.ext
    simp only [String.data_append, List.append_assoc]
    congr 1
  · show appendNames
        ((nm ++ " is **online** with " ++ toString (1 : Nat) ++ " online player")
          ++ ".\n\nPlayer:\n") sample = _
    rw [appendNames_eq]
    have hpre : (nm ++ " is **online** with " ++ toString (1 : Nat) ++ " online player")
        ++ ".\n\nPlayer:\n" = nm ++ " is **online** with 1 online player.\n\nPlayer:\n" := by
      apply String.ext
      simp only [String.data_append, List.append_assoc]
      congr 1
    rw [hpre]
  · intro hn
    have h0 : (n == 0) = false := by simp; omega
    have h1 : (n == 1) = false := by simp; omega
    simp only [get_content, h0, h1, Bool.false_eq_true, if_false]
    rw [appendNames_eq]
    have hpre : (nm ++ " is **online** with " ++ toString n ++ " online player")
        ++ "s.\n\nPlayers:\n"
        = nm ++ " is **online** with " ++ toString n ++ " online players.\n\nPlayers:\n" := by
      apply String.ext
      simp only [String.data_append, List.append_assoc]
      congr 1
    rw [hpre]

/-- C2 code bug: a successful removeserver mutates the registry and returns
at once without invoking write_json_file (saved flag false), while a
successful addserver does invoke it (saved flag true). The durable snapshot
therefore still holds the removed target, which is restored at the next
startup load. -/
theorem C2_remove_skips_persistence :
    removeserver [⟨"A", "1.2.3.4:25565", 1, 10, 100⟩] "1.2.3.4" 1 10
      = ([], RemoveResponse.removed, false)
    ∧ addserver [] "1.2.3.4" "A" 25565 1 10 100
      = ([⟨"A", "1.2.3.4:25565", 1, 10, 100⟩], AddResult.added "A", true) := by
  refine ⟨by decide, by decide⟩

/-- C3 confirmed: one poll tick never raises. Every server in the list, in
order, has its notification message edited: to the online rendering when
its status query succeeds, and to the offline rendering when the query
fails, in which case a log line with a timestamp is emitted. A failing
target therefore never prevents the subsequent targets of the same tick
from being processed. Message edits themselves are modelled as succeeding;
the claim concerns failures of the status source. -/
theorem C3_tick_fault_isolation (hour minute second : Nat)
    (env : MCServer → Except String Status) (servers : List MCServer) :
    poll_servers hour minute second env servers
      = Except.ok
          (servers.map (fun sv =>
            (sv.messageId,
             match env sv with
             | Except.ok st => get_content sv.name st
             | Except.error e => (handle_exception hour minute second sv e).1)),
           servers.filterMap (fun sv =>
             match env sv with
             | Except.ok _ => none
             | Except.error e => some (handle_exception hour minute second sv e).2)) := by
  induction servers with
  | nil => rfl
  | cons sv rest ih =>
      cases henv : env sv with
      | ok st =>
          simp only [poll_servers, get_status, henv, ih, List.map_cons, List.filterMap_cons]
          rfl
      | error e =>
          simp only [poll_servers, get_status, henv, ih, List.map_cons, List.filterMap_cons]
          rfl

theorem addserver_nodup (servers : List MCServer) (ip nm : String)
    (port g c m2 : Nat) (h : (servers.map (fun s => s.address)).Nodup) :
    (((addserver servers ip nm port g c m2).1).map (fun s => s.address)).Nodup := by
  simp only [addserver]
  cases hfind : servers.find? (fun s => s.address == ip ++ ":" ++ toString port) with
  | some s => simpa using h
  | none =>
      simp only [List.map_append, List.map_cons, List.map_nil]
      rw [List.nodup_append]
      refine ⟨h, List.nodup_singleton _, ?_⟩
      intro a ha hb
      rw [List.find?_eq_none] at hfind
      rcases List.mem_map.mp ha with ⟨t, ht, rfl⟩
      have : ¬ (t.address == ip ++ ":" ++ toString port) = true := hfind t ht
      rw [beq_iff_eq] at this
      exact this (by simpa using hb)

theorem runAdds_nodup (reqs : List AddReq) :
    ∀ servers : List MCServer, (servers.map (fun s => s.address)).Nodup →
    ((runAdds servers reqs).map (fun s => s.address)).Nodup := by
  induction reqs with
  | nil => intro servers h; simpa [runAdds] using h
  | cons q rest ih =>
      intro servers h
      have step := addserver_nodup servers q.ip q.nm q.port q.guildId q.channelId q.messageId h
      simpa [runAdds] using ih _ step

/-- C4 confirmed: for every sequence of add calls starting from a registry
with pairwise-distinct addresses, the registry keeps at most one active
target per distinct address; and an add whose address equals the address of
an already-tracked target is rejected as a duplicate carrying the message
link of the existing entry, leaving the registry unchanged (and hence its
size unchanged) and skipping persistence of a new entry. -/
theorem C4_address_uniqueness :
    (∀ (servers : List MCServer) (reqs : List AddReq),
      (servers.map (fun s => s.address)).Nodup →
      ((runAdds servers reqs).map (fun s => s.address)).Nodup)
    ∧ (∀ (servers : List MCServer) (ip nm : String) (port g c m2 : Nat) (s : MCServer),
      servers.find? (fun t => t.address == ip ++ ":" ++ toString port) = some s →
      addserver servers ip nm port g c m2
        = (servers, AddResult.duplicate (message_link s), false)) := by
  constructor
  · intro servers reqs h
    exact runAdds_nodup reqs servers h
  · intro servers ip nm port g c m2 s hfind
    simp only [addserver, hfind]

/-- C4 witness: a duplicate add of address 1.2.3.4:25565 from another
channel is rejected with the existing message link and changes nothing, and
a sequence of two adds of the same address yields distinct addresses. -/
theorem C4_address_uniqueness_witness :
    ((runAdds [] [⟨"1.2.3.4", "A", 25565, 1, 10, 100⟩,
        ⟨"1.2.3.4", "B", 25565, 1, 10, 101⟩]).map (fun s => s.address)).Nodup
    ∧ addserver [⟨"A", "1.2.3.4:25565", 1, 10, 100⟩] "1.2.3.4" "B" 25565 2 20 200
      = ([⟨"A", "1.2.3.4:25565", 1, 10, 100⟩],
         AddResult.duplicate (message_link ⟨"A", "1.2.3.4:25565", 1, 10, 100⟩), false) :=
  ⟨C4_address_uniqueness.1 [] _ (by decide),
   C4_address_uniqueness.2 [⟨"A", "1.2.3.4:25565", 1, 10, 100⟩] "1.2.3.4" "B" 25565 2 20 200
     ⟨"A", "1.2.3.4:25565", 1, 10, 100⟩ (by decide)⟩

/-- C5 counterexample: a target whose notification message lives in channel
10 of guild 1 is removed by a removeserver issued from channel 20 of the
same guild — a different scope under the guild-and-channel reading of
scope — because the check of the code reads only the guild id. -/
theorem C5_counterexample :
    removeserver [⟨"A", "1.2.3.4:25565", 1, 10, 100⟩] "1.2.3.4" 1 20
      = ([], RemoveResponse.removed, false)
    ∧ (⟨"A", "1.2.3.4:25565", 1, 10, 100⟩ : MCServer).channelId ≠ 20 := by
  refine ⟨by decide, by decide⟩

theorem removeTarget_keeps_other_guilds (ip : String) (g : Nat) :
    ∀ (servers l : List MCServer), removeTarget ip g servers = some l →
    ∀ s ∈ servers, s.guildId ≠ g → s ∈ l := by
  intro servers
  induction servers with
  | nil => intro l h; simp [removeTarget] at h
  | cons a rest ih =>
      intro l h s hs hg
      by_cases hp : (containsSub ip.data a.address.data && a.guildId == g) = true
      · rw [removeTarget, if_pos hp] at h
        have hl : l = rest := by injection h with h2; exact h2.symm
        subst hl
        rcases List.mem_cons.mp hs with hsa | hsr
        · exfalso
          have hgg : a.guildId = g := by
            have := hp
            simp only [Bool.and_eq_true, beq_iff_eq] at this
            exact this.2
          exact hg (hsa ▸ hgg)
        · exact hsr
      · rw [removeTarget, if_neg hp] at h
        cases hrt : removeTarget ip g rest with
        | none => rw [hrt] at h; cases h
        | some rest2 =>
            rw [hrt] at h
            have hl : l = a :: rest2 := by injection h with h2; exact h2.symm
            subst hl
            rcases List.mem_cons.mp hs with hsa | hsr
            · exact hsa ▸ List.mem_cons_self a rest2
            · exact List.mem_cons_of_mem a (ih rest2 hrt s hsr hg)

/-- C5 amended: the scope check of removeserver is at the guild level only:
a target whose guild id differs from the guild of the caller is never
removed, whatever the address fragment; within the same guild the channel
is not consulted, so a remove issued from a different channel of the owning
guild can remove the target (as the counterexample shows). -/
theorem C5_amended_guild_scope (servers : List MCServer) (ip : String)
    (callerGuildId callerChannelId : Nat) (s : MCServer)
    (hs : s ∈ servers) (hg : s.guildId ≠ callerGuildId) :
    s ∈ (removeserver servers ip callerGuildId callerChannelId).1 := by
  cases hrt : removeTarget ip callerGuildId servers with
  | some l =>
      have hr : removeserver servers ip callerGuildId callerChannelId
          = (l, RemoveResponse.removed, false) := by
        simp [removeserver, hrt]
      rw [hr]
      exact removeTarget_keeps_other_guilds ip callerGuildId servers l hrt s hs hg
  | none =>
      have hr : (removeserver servers ip callerGuildId callerChannelId).1 = servers := by
        simp only [removeserver, hrt]
        split <;> rfl
      rw [hr]
      exact hs

/-- C5 amended witness: a target of guild 1 survives a matching remove
issued from guild 2. -/
theorem C5_amended_guild_scope_witness :
    (⟨"A", "a.example:1", 1, 10, 100⟩ : MCServer)
      ∈ (removeserver [⟨"A", "a.example:1", 1, 10, 100⟩] "a" 2 20).1 :=
  C5_amended_guild_scope [⟨"A", "a.example:1", 1, 10, 100⟩] "a" 2 20
    ⟨"A", "a.example:1", 1, 10, 100⟩ (by decide) (by decide)

/-- C6 counterexample: with a guild-1 target and a guild-2 target tracked, a
removeserver from guild 2 with an unmatched fragment leaves the registry
unchanged but responds with the addresses of every tracked target of every
guild, including the guild-1 target that is outside the caller scope — not
with the addresses of the caller scope only. -/
theorem C6_counterexample :
    removeserver [⟨"A", "a.example:1", 1, 10, 100⟩, ⟨"B", "b.example:2", 2, 20, 200⟩]
        "zzz" 2 20
      = ([⟨"A", "a.example:1", 1, 10, 100⟩, ⟨"B", "b.example:2", 2, 20, 200⟩],
         RemoveResponse.notFound ["a.example:1", "b.example:2"], false)
    ∧ (⟨"A", "a.example:1", 1, 10, 100⟩ : MCServer).guildId ≠ 2
    ∧ RemoveResponse.notFound ["a.example:1", "b.example:2"]
        ≠ RemoveResponse.notFound ["b.example:2"] := by
  refine ⟨by decide, by decide, by decide⟩

theorem removeTarget_eq_none (ip : String) (g : Nat) :
    ∀ servers : List MCServer,
    (∀ s ∈ servers, ¬(containsSub ip.data s.address.data && s.guildId == g) = true) →
    removeTarget ip g servers = none := by
  intro servers
  induction servers with
  | nil => intro _; rfl
  | cons a rest ih =>
      intro h
      rw [removeTarget, if_neg (h a (List.mem_cons_self a rest))]
      rw [ih (fun s hs => h s (List.mem_cons_of_mem a hs))]

/-- C6 amended: when removeserver finds no target of the caller guild whose
address contains the fragment, the registry is left unchanged and the
response is the explicit empty-registry message when no targets exist at
all, and otherwise lists the addresses of all existing targets across every
guild, in registry order — not only those of the caller scope. -/
theorem C6_amended_global_listing (servers : List MCServer) (ip : String)
    (g ch : Nat)
    (h : ∀ s ∈ servers, ¬(containsSub ip.data s.address.data && s.guildId == g) = true) :
    removeserver servers ip g ch
      = (servers,
         if servers.isEmpty then RemoveResponse.empty
         else RemoveResponse.notFound (servers.map (fun s => s.address)), false) := by
  simp only [removeserver, removeTarget_eq_none ip g servers h]
  split <;> rfl

/-- C6 amended witness: a remove with an unmatched fragment in a one-target
registry responds with the not-found listing of that address. -/
theorem C6_amended_global_listing_witness :
    removeserver [⟨"A", "a.example:1", 1, 10, 100⟩] "zzz" 1 10
      = ([⟨"A", "a.example:1", 1, 10, 100⟩],
         RemoveResponse.notFound ["a.example:1"], false) :=
  (C6_amended_global_listing [⟨"A", "a.example:1", 1, 10, 100⟩] "zzz" 1 10
    (by decide)).trans (by decide)

theorem containsSub_nil (hay : List Char) : containsSub [] hay = true := by
  induction hay with
  | nil => rfl
  | cons c t ih => simp [containsSub, List.isPrefixOf, ih]

theorem removeTarget_empty_fragment (g : Nat) :
    ∀ servers : List MCServer, (servers.any (fun s => s.guildId == g)) = true →
    removeTarget "" g servers = some (servers.eraseP (fun s => s.guildId == g)) := by
  intro servers
  induction servers with
  | nil => intro h; simp at h
  | cons a rest ih =>
      intro h
      have hc : containsSub ("" : String).data a.address.data = true := containsSub_nil _
      by_cases hg : (a.guildId == g) = true
      · rw [removeTarget, if_pos (by simp [hc, hg]),
          @List.eraseP_cons_of_pos MCServer a rest (fun s => s.guildId == g) hg]
      · have hrest : (rest.any (fun s => s.guildId == g)) = true := by
          rcases List.any_eq_true.mp h with ⟨s, hs, hsg⟩
          rcases List.mem_cons.mp hs with rfl | hsr
          · exact absurd hsg hg
          · exact List.any_eq_true.mpr ⟨s, hsr, hsg⟩
        rw [removeTarget, if_neg (by simp [hc, hg]), ih hrest,
          @List.eraseP_cons_of_neg MCServer a rest (fun s => s.guildId == g) hg]

/-- C9 confirmed: the empty address fragment is contained in every address,
so in any guild with at least one tracked target a removeserver with the
empty fragment always removes the first target of that guild in registry
order (and reports success without persisting). -/
theorem C9_empty_fragment_removes_first (servers : List MCServer) (g ch : Nat)
    (h : (servers.any (fun s => s.guildId == g)) = true) :
    removeserver servers "" g ch
      = (servers.eraseP (fun s => s.guildId == g), RemoveResponse.removed, false) := by
  simp only [removeserver, removeTarget_empty_fragment g servers h]

/-- C9 witness: with guild-2 and two guild-1 targets tracked, the empty
fragment from guild 1 removes the first guild-1 target. -/
theorem C9_empty_fragment_removes_first_witness :
    removeserver [⟨"A", "a.example:1", 2, 10, 100⟩, ⟨"B", "b.example:2", 1, 20, 200⟩,
        ⟨"C", "c.example:3", 1, 30, 300⟩] "" 1 20
      = ([⟨"A", "a.example:1", 2, 10, 100⟩, ⟨"C", "c.example:3", 1, 30, 300⟩],
         RemoveResponse.removed, false) :=
  (C9_empty_fragment_removes_first [⟨"A", "a.example:1", 2, 10, 100⟩,
    ⟨"B", "b.example:2", 1, 20, 200⟩, ⟨"C", "c.example:3", 1, 30, 300⟩] 1 20
    (by decide)).trans (by decide)

theorem covers_iff_any (R : List MCServer) (r : ServerRecord) :
    (R.any (fun s => s.name == r.name && s.address == r.address)) = true ↔ covers R r := by
  simp [covers, List.any_eq_true, Bool.and_eq_true, beq_iff_eq]

theorem loadAux (ok : ServerRecord → Bool) (data : List ServerRecord) :
    ∀ (acc : List MCServer) (w : Nat),
    (∀ r ∈ data, ∀ s ∈ acc, ¬(s.name = r.name ∧ s.address = r.address)) →
    (data.map (fun r => (r.name, r.address))).Nodup →
    data.foldl (loadStep ok) (acc, w)
      = (acc ++ (data.filter ok).map serverOfRecord,
         w + (data.filter (fun r => !ok r)).length) := by
  induction data with
  | nil => intro acc w _ _; simp
  | cons r rest ih =>
      intro acc w hdisj hnd
      have hfound : (acc.any (fun s => s.name == r.name && s.address == r.address)) = false := by
        rw [← Bool.not_eq_true, covers_iff_any]
        rintro ⟨s, hs, hmatch⟩
        exact hdisj r (List.mem_cons_self r rest) s hs hmatch
      have hnd' := hnd
      rw [List.map_cons] at hnd'
      have hnd2 : (rest.map (fun r => (r.name, r.address))).Nodup :=
        (List.nodup_cons.mp hnd').2
      have hnotmem : (r.name, r.address) ∉ rest.map (fun r => (r.name, r.address)) :=
        (List.nodup_cons.mp hnd').1
      cases hok : ok r with
      | true =>
          have step : loadStep ok (acc, w) r = (acc ++ [serverOfRecord r], w) := by
            simp [loadStep, hfound, hok]
          rw [List.foldl_cons, step, ih (acc ++ [serverOfRecord r]) w ?_ hnd2]
          · simp [List.filter_cons, hok, List.append_assoc]
          · intro r2 hr2 s hs hmatch
            rcases List.mem_append.mp hs with hsl | hsr
            · exact hdisj r2 (List.mem_cons_of_mem r hr2) s hsl hmatch
            · have hsr2 : s = serverOfRecord r := by simpa using hsr
              apply hnotmem
              have : (r2.name, r2.address) = (r.name, r.address) := by
                rcases hmatch with ⟨h1, h2⟩
                rw [hsr2] at h1 h2
                simp [serverOfRecord] at h1 h2
                rw [h1, h2]
              rw [← this]
              exact List.mem_map.mpr ⟨r2, hr2, rfl⟩
      | false =>
          have step : loadStep ok (acc, w) r = (acc, w + 1) := by
            simp [loadStep, hfound, hok]
          rw [List.foldl_cons, step,
            ih acc (w + 1) (fun r2 hr2 => hdisj r2 (List.mem_cons_of_mem r hr2)) hnd2]
          have hfil : List.filter ok (r :: rest) = List.filter ok rest := by
            simp [List.filter_cons, hok]
          have hlen : (List.filter (fun r2 => !ok r2) (r :: rest)).length
              = (List.filter (fun r2 => !ok r2) rest).length + 1 := by
            simp [List.filter_cons, hok]
          rw [hfil, hlen]
          have harith : w + 1 + (List.filter (fun r2 => !ok r2) rest).length
              = w + ((List.filter (fun r2 => !ok r2) rest).length + 1) := by omega
          rw [harith]

theorem write_read_map (servers : List MCServer) :
    (write_json_file servers).map serverOfRecord = servers := by
  induction servers with
  | nil => rfl
  | cons s rest ih => simp [write_json_file, serverOfRecord] at ih ⊢; exact ih

theorem length_filter_not {α : Type} (p : α → Bool) (l : List α) :
    (l.filter (fun a => !p a)).length = l.length - (l.filter p).length := by
  induction l with
  | nil => rfl
  | cons a t ih =>
      have hle := List.length_filter_le p t
      cases ha : p a <;> simp [List.filter_cons, ha, ih] <;> omega

/-- C7 confirmed: for a registry whose addresses are pairwise distinct (the
registry uniqueness invariant) and whose persisted messaging handles all
resolve, loading the snapshot written by saving it reconstructs exactly the
same targets, in the same order — in particular the same name and address,
in order. -/
theorem C7_roundtrip (servers : List MCServer) (ok : ServerRecord → Bool)
    (hok : ∀ r ∈ write_json_file servers, ok r = true)
    (hnd : (servers.map (fun s => s.address)).Nodup) :
    (read_json_file ok [] (write_json_file servers)).1 = servers := by
  have h2 : (((write_json_file servers).map (fun r => (r.name, r.address))).map Prod.snd).Nodup := by
    have he : ((write_json_file servers).map (fun r => (r.name, r.address))).map Prod.snd
        = servers.map (fun s => s.address) := by
      simp [write_json_file, List.map_map]
    rw [he]
    exact hnd
  have hpairs := List.Nodup.of_map Prod.snd h2
  have hload := loadAux ok (write_json_file servers) [] 0
    (fun r _ s hs => absurd hs (List.not_mem_nil s)) hpairs
  simp only [read_json_file]
  rw [hload]
  rw [List.filter_eq_self.mpr hok]
  simp [write_read_map]

/-- C7 witness: a two-target registry with resolvable handles survives the
save and load round trip unchanged. -/
theorem C7_roundtrip_witness :
    (read_json_file (fun _ => true) []
      (write_json_file [⟨"A", "a.example:1", 1, 10, 100⟩, ⟨"B", "b.example:2", 2, 20, 200⟩])).1
      = [⟨"A", "a.example:1", 1, 10, 100⟩, ⟨"B", "b.example:2", 2, 20, 200⟩] :=
  C7_roundtrip [⟨"A", "a.example:1", 1, 10, 100⟩, ⟨"B", "b.example:2", 2, 20, 200⟩]
    (fun _ => true) (by decide) (by decide)

/-- C8 confirmed: recovering from a snapshot of pairwise-distinct records
(as written by saving a registry with distinct addresses), starting from an
empty registry, yields exactly the resolving records, reconstructed in
order from their persisted fields (so no new message is created), and one
logged warning per record that fails to resolve: M entries and N minus M
warnings for M resolving records out of N. -/
theorem C8_recovery_partial_failure (ok : ServerRecord → Bool) (data : List ServerRecord)
    (hnd : (data.map (fun r => (r.name, r.address))).Nodup) :
    read_json_file ok [] data
      = ((data.filter ok).map serverOfRecord, data.length - (data.filter ok).length) := by
  have hload := loadAux ok data [] 0
    (fun r _ s hs => absurd hs (List.not_mem_nil s)) hnd
  simp only [read_json_file]
  rw [hload]
  simp [length_filter_not]

/-- C8 witness: of three records, the one with an unresolvable message is
dropped with one warning and the other two are recovered in order. -/
theorem C8_recovery_partial_failure_witness :
    read_json_file (fun r => r.message_id != 0) []
      [⟨"A", "a.example:1", 1, 10, 100⟩, ⟨"B", "b.example:2", 2, 20, 0⟩,
       ⟨"C", "c.example:3", 3, 30, 300⟩]
      = ([⟨"A", "a.example:1", 1, 10, 100⟩, ⟨"C", "c.example:3", 3, 30, 300⟩], 1) :=
  (C8_recovery_partial_failure (fun r => r.message_id != 0)
    [⟨"A", "a.example:1", 1, 10, 100⟩, ⟨"B", "b.example:2", 2, 20, 0⟩,
     ⟨"C", "c.example:3", 3, 30, 300⟩] (by decide)).trans (by decide)

theorem loadStep_fst (ok : ServerRecord → Bool) (acc : List MCServer × Nat) (r : ServerRecord) :
    (loadStep ok acc r).1 = acc.1 ∨ (loadStep ok acc r).1 = acc.1 ++ [serverOfRecord r] := by
  unfold loadStep
  split
  · exact Or.inl rfl
  · split
    · exact Or.inr rfl
    · exact Or.inl rfl

theorem mem_foldl_load (ok : ServerRecord → Bool) (data : List ServerRecord) :
    ∀ (acc : List MCServer × Nat) (s : MCServer),
    s ∈ acc.1 → s ∈ (data.foldl (loadStep ok) acc).1 := by
  induction data with
  | nil => intro acc s hs; simpa using hs
  | cons r rest ih =>
      intro acc s hs
      rw [List.foldl_cons]
      apply ih
      rcases loadStep_fst ok acc r with h | h
      · rw [h]; exact hs
      · rw [h]; exact List.mem_append.mpr (Or.inl hs)

theorem covers_foldl (ok : ServerRecord → Bool) (data : List ServerRecord)
    (acc : List MCServer × Nat) (r : ServerRecord) (h : covers acc.1 r) :
    covers ((data.foldl (loadStep ok) acc).1) r := by
  rcases h with ⟨s, hs, hm⟩
  exact ⟨s, mem_foldl_load ok data acc s hs, hm⟩

theorem covers_final (ok : ServerRecord → Bool) (data : List ServerRecord) :
    ∀ (acc : List MCServer × Nat) (r : ServerRecord), r ∈ data → ok r = true →
    covers ((data.foldl (loadStep ok) acc).1) r := by
  induction data with
  | nil => intro acc r hr; exact absurd hr (List.not_mem_nil r)
  | cons r2 rest ih =>
      intro acc r hr hok
      rw [List.foldl_cons]
      rcases List.mem_cons.mp hr with rfl | hmem
      · apply covers_foldl
        by_cases hf : (acc.1.any (fun s => s.name == r.name && s.address == r.address)) = true
        · have hcov : covers acc.1 r := (covers_iff_any acc.1 r).mp hf
          have hst : (loadStep ok acc r).1 = acc.1 := by simp [loadStep, hf]
          rw [hst]
          exact hcov
        · rw [Bool.not_eq_true] at hf
          have hst : (loadStep ok acc r).1 = acc.1 ++ [serverOfRecord r] := by
            simp [loadStep, hf, hok]
          rw [hst]
          exact ⟨serverOfRecord r,
            List.mem_append.mpr (Or.inr (List.mem_singleton.mpr rfl)), rfl, rfl⟩
      · exact ih (loadStep ok acc r2) r hmem hok

theorem foldl_noop (ok : ServerRecord → Bool) (data : List ServerRecord) :
    ∀ (R : List MCServer) (w : Nat),
    (∀ r ∈ data, ok r = true → covers R r) →
    ((data.foldl (loadStep ok) (R, w)).1) = R := by
  induction data with
  | nil => intro R w _; rfl
  | cons r rest ih =>
      intro R w h
      rw [List.foldl_cons]
      have hstep : (loadStep ok (R, w) r).1 = R := by
        by_cases hf : (R.any (fun s => s.name == r.name && s.address == r.address)) = true
        · simp [loadStep, hf]
        · have hok : ok r = false := by
            cases hok2 : ok r
            · rfl
            · exact absurd ((covers_iff_any R r).mpr
                (h r (List.mem_cons_self r rest) hok2)) hf
          rw [Bool.not_eq_true] at hf
          simp [loadStep, hf, hok]
      have h2 := ih R (loadStep ok (R, w) r).2
        (fun r2 hr2 => h r2 (List.mem_cons_of_mem r hr2))
      have he : (R, (loadStep ok (R, w) r).2) = loadStep ok (R, w) r := by
        nth_rewrite 1 [← hstep]
        rfl
      rw [← he]
      exact h2

/-- C10 confirmed: recovery skips a persisted record exactly when an
in-memory target matches it in both name and address, so loading the same
snapshot again on top of the registry recovered from it changes nothing: no
duplicate entry is added for any record recovered the first time (nor for
one that failed, since the same resolution fails again). A record matching
an in-memory target in address but not in name is not deduplicated: it is
appended when it resolves. -/
theorem C10_recovery_idempotent :
    (∀ (ok : ServerRecord → Bool) (data : List ServerRecord),
      (read_json_file ok (read_json_file ok [] data).1 data).1
        = (read_json_file ok [] data).1)
    ∧ (∀ (ok : ServerRecord → Bool) (R : List MCServer) (w : Nat) (r : ServerRecord),
      (∃ s ∈ R, s.name = r.name ∧ s.address = r.address) →
      loadStep ok (R, w) r = (R, w))
    ∧ (∀ (ok : ServerRecord → Bool) (R : List MCServer) (w : Nat) (r : ServerRecord),
      ok r = true → (∀ s ∈ R, ¬(s.name = r.name ∧ s.address = r.address)) →
      loadStep ok (R, w) r = (R ++ [serverOfRecord r], w)) := by
  refine ⟨?_, ?_, ?_⟩
  · intro ok data
    simp only [read_json_file]
    apply foldl_noop
    intro r hr hok
    exact covers_final ok data ([], 0) r hr hok
  · intro ok R w r hcov
    have hf : (R.any (fun s => s.name == r.name && s.address == r.address)) = true :=
      (covers_iff_any R r).mpr hcov
    simp [loadStep, hf]
  · intro ok R w r hok hdisj
    have hf : (R.any (fun s => s.name == r.name && s.address == r.address)) = false := by
      rw [← Bool.not_eq_true, covers_iff_any]
      rintro ⟨s, hs, hm⟩
      exact hdisj s hs hm
    simp [loadStep, hf, hok]

/-- C10 witness: a second load of a one-record snapshot changes nothing; a
record equal to a tracked target in name and address is skipped; a record
sharing only the address is appended. -/
theorem C10_recovery_idempotent_witness :
    (read_json_file (fun _ => true)
        (read_json_file (fun _ => true) [] [⟨"A", "a.example:1", 1, 10, 100⟩]).1
        [⟨"A", "a.example:1", 1, 10, 100⟩]).1
      = (read_json_file (fun _ => true) [] [⟨"A", "a.example:1", 1, 10, 100⟩]).1
    ∧ loadStep (fun _ => true) ([⟨"A", "a.example:1", 1, 10, 100⟩], 0)
        ⟨"A", "a.example:1", 9, 90, 900⟩
      = ([⟨"A", "a.example:1", 1, 10, 100⟩], 0)
    ∧ loadStep (fun _ => true) ([⟨"A", "a.example:1", 1, 10, 100⟩], 0)
        ⟨"B", "a.example:1", 2, 20, 200⟩
      = ([⟨"A", "a.example:1", 1, 10, 100⟩]
          ++ [serverOfRecord ⟨"B", "a.example:1", 2, 20, 200⟩], 0) :=
  ⟨C10_recovery_idempotent.1 (fun _ => true) [⟨"A", "a.example:1", 1, 10, 100⟩],
   C10_recovery_idempotent.2.1 (fun _ => true) [⟨"A", "a.example:1", 1, 10, 100⟩] 0
     ⟨"A", "a.example:1", 9, 90, 900⟩ (by decide),
   C10_recovery_idempotent.2.2 (fun _ => true) [⟨"A", "a.example:1", 1, 10, 100⟩] 0
     ⟨"B", "a.example:1", 2, 20, 200⟩ (by decide) (by decide)⟩

/-- C3 witness: with the first target failing and the second online, the
tick edits both messages — the first to the offline rendering with a logged
timestamped line, the second to the online rendering. -/
theorem C3_tick_fault_isolation_witness :
    poll_servers 12 30 5
      (fun sv => if sv.name == "A" then Except.error "ConnectionRefused"
                 else Except.ok ⟨1, ["Alice"]⟩)
      [⟨"A", "a.example:1", 1, 10, 100⟩, ⟨"B", "b.example:2", 1, 20, 200⟩]
      = Except.ok
          ([(100, "A is **offline**: ConnectionRefused"),
            (200, "B is **online** with 1 online player.\n\nPlayer:\nAlice\n")],
           ["12:30:05> Error looking up server A (a.example:1) status: ConnectionRefused"]) :=
  (C3_tick_fault_isolation 12 30 5
    (fun sv => if sv.name == "A" then Except.error "ConnectionRefused"
               else Except.ok ⟨1, ["Alice"]⟩)
    [⟨"A", "a.example:1", 1, 10, 100⟩, ⟨"B", "b.example:2", 1, 20, 200⟩]).trans (by rfl)

/-- C1 amended witness: the four formats evaluated at concrete inputs,
including a two-player status discharging the plural-case hypothesis. -/
theorem C1_amended_formats_witness :
    (handle_exception 12 30 5 ⟨"Survival", "1.2.3.4:25565", 1, 10, 100⟩ "ConnectionRefused").1
      = "Survival is **offline**: ConnectionRefused"
    ∧ get_content "Survival" ⟨2, ["Alice", "Bob"]⟩
      = "Survival is **online** with 2 online players.\n\nPlayers:\nAlice\nBob\n" :=
  ⟨(C1_amended_formats 12 30 5 ⟨"Survival", "1.2.3.4:25565", 1, 10, 100⟩ "ConnectionRefused"
      "Survival" ["Alice", "Bob"] 2).1,
   ((C1_amended_formats 12 30 5 ⟨"Survival", "1.2.3.4:25565", 1, 10, 100⟩ "ConnectionRefused"
      "Survival" ["Alice", "Bob"] 2).2.2.2 (by decide)).trans (by decide)⟩
